import Mathlib

/-!
Verification of the airfoil toolkit's geometry-resolution and polar-sweep
orchestration logic (`airfoil_toolkit/airfoil.py`), shallowly embedded in Lean.

Coordinates and aerodynamic quantities are modelled as rationals; the external
solver (`run_xfoil`) and the coordinate providers (`get_NACA_coordinates`,
`get_UIUC_coordinates`, `get_file_coordinates`) are parameters of the embedded
functions, since they are external collaborators of the code under study.
Python exceptions are modelled with `Except`.
-/

namespace AirfoilToolkit

/-! ## Decimal-digit machinery for the `"%f"` coordinate format -/

/-- The character for a single decimal digit `d < 10`. -/
def digitChar (d : Nat) : Char := Char.ofNat (48 + d)

/-- Fuelled digit extraction (structurally recursive so that the kernel can
evaluate it; the fuel is irrelevant as long as it is at least the input). -/
def natToDigitsAux (fuel : Nat) (n : Nat) : List Nat :=
  match fuel with
  | 0 => [n]
  | fuel + 1 => if n < 10 then [n] else natToDigitsAux fuel (n / 10) ++ [n % 10]

/-- Big-endian decimal digits of a natural number (`0 ↦ [0]`). -/
def natToDigits (n : Nat) : List Nat := natToDigitsAux n n

/-- Value of a big-endian decimal digit list. -/
def digitsVal (ds : List Nat) : Nat := ds.foldl (fun a d => a * 10 + d) 0

/-! ## Character-list splitting (for lines and whitespace tokens) -/

/-- Split a list of characters on a separator character; always returns a
nonempty list of (possibly empty) chunks, like Python `str.split(sep)`. -/
def splitOnChar (c : Char) : List Char → List (List Char)
  | [] => [[]]
  | x :: xs =>
    match splitOnChar c xs with
    | [] => [[]]
    | y :: ys => if x = c then [] :: y :: ys else (x :: y) :: ys

/-- Interleave a separator character between chunks (inverse of `splitOnChar`). -/
def chIntercalate (c : Char) : List (List Char) → List Char
  | [] => []
  | [p] => p
  | p :: ps => p ++ c :: chIntercalate c ps

/-! ## The `"%f"` fixed-point format used by `write_dat` -/

/-- The magnitude of `q`, rounded (half-up) to the nearest multiple of
`10⁻⁶`, as an integer count of millionths: this is the number printed by
Python's `"%f"`.  Computed by the integer division
`⌊|q|·10⁶ + 1/2⌋ = (2·|num|·10⁶ + den) / (2·den)`. -/
def fixed6Num (q : ℚ) : Nat :=
  (2 * q.num.natAbs * 1000000 + q.den) / (2 * q.den)

/-- Fractional part of the `"%f"` output: exactly six digit characters,
zero-padded on the left. -/
def pad6 (m : Nat) : List Char :=
  List.replicate (6 - (natToDigits m).length) '0' ++ (natToDigits m).map digitChar

/-- Character sequence produced by Python's `"%f" % q`: optional sign, integer
part, `'.'`, six fractional digits. -/
def pyFormatChars (q : ℚ) : List Char :=
  (if q < 0 then ['-'] else []) ++
    (natToDigits (fixed6Num q / 1000000)).map digitChar ++
      '.' :: pad6 (fixed6Num q % 1000000)

/-- Python's `"%f" % q`, the 6-decimal fixed-point rendering of `q`. -/
def pyFormatF (q : ℚ) : String := String.mk (pyFormatChars q)

/-- The rational value actually denoted by the text `pyFormatF q`:
`q` rounded to six decimal places (sign applied to the rounded magnitude). -/
def round6 (q : ℚ) : ℚ := (if q < 0 then -1 else 1) * (fixed6Num q : ℚ) / 1000000

/-! ## `write_dat` (airfoil.py lines 133–163) and the spec's reader -/

/-- Python's `"\n".join`. -/
def joinNL : List String → String
  | [] => ""
  | [s] => s
  | s :: rest => s ++ "\n" ++ joinNL rest

/-- One data line of the `.dat` format: `"%f %f" % (x, y)`. -/
def coordLine (p : ℚ × ℚ) : String := pyFormatF p.1 ++ " " ++ pyFormatF p.2

/-- Embedding of `Airfoil.write_dat` (the returned text; persisting the same
text to a file path is I/O and not modelled): the optional name line followed
by one `"%f %f"` line per coordinate, joined by `"\n"`. -/
def write_dat (name : String) (coordinates : List (ℚ × ℚ))
    (include_name : Bool) : String :=
  joinNL ((if include_name then [name] else []) ++ coordinates.map coordLine)

/-- The lines of a `.dat` text (an empty text has no lines, matching Python's
`str.splitlines`; our texts never end in a newline). -/
def datLines (s : String) : List String :=
  if s.data = [] then [] else (splitOnChar '\n' s.data).map String.mk

/-- Parse a nonempty all-digit character sequence as a natural number. -/
def parseDigits (cs : List Char) : Option Nat :=
  if cs = [] then none
  else if cs.all Char.isDigit then
    some (digitsVal (cs.map (fun c => c.toNat - 48)))
  else none

/-- Parse an unsigned fixed-point numeral: digits with an optional single
`'.'` and fractional digits. -/
def parseUnsigned (cs : List Char) : Option ℚ :=
  match splitOnChar '.' cs with
  | [as] => (parseDigits as).map (fun n => (n : ℚ))
  | [as, bs] =>
    match parseDigits as, parseDigits bs with
    | some a, some b => some (mkRat (a * 10 ^ bs.length + b) (10 ^ bs.length))
    | _, _ => none
  | _ => none

/-- Parse a possibly-signed fixed-point numeral. -/
def parseNumToken (cs : List Char) : Option ℚ :=
  if cs.head? = some '-' then (parseUnsigned cs.tail).map (fun q => -q)
  else parseUnsigned cs

/-- Parse one coordinate line: exactly two whitespace-separated numerals. -/
def parseCoordLine (line : String) : Option (ℚ × ℚ) :=
  match (splitOnChar ' ' line.data).filter (fun t => !t.isEmpty) with
  | [t1, t2] =>
    match parseNumToken t1, parseNumToken t2 with
    | some x, some y => some (x, y)
    | _, _ => none
  | _ => none

/-- Modelled from the spec: the coordinate-file reader (`read` of
SerializationIO, realised in the running code by the external
`get_file_coordinates` import, which is not part of this repository's
sources).  Per the spec it parses one coordinate per line and must recognise
and skip a non-numeric first header line, distinguishing it from numeric data
lines; a malformed data line is a parse error. -/
def readDat (text : String) : Option (List (ℚ × ℚ)) :=
  match datLines text with
  | [] => some []
  | l :: rest =>
    match parseCoordLine l with
    | some p => (rest.mapM parseCoordLine).map (fun ps => p :: ps)
    | none => rest.mapM parseCoordLine

/-! ## Data model: run records, Python exceptions, the Airfoil object -/

/-- One XFoil run's polar record: parallel sequences of angle of attack and
force/moment coefficients (the dict returned by `run_xfoil` and consumed by
`plot_polars` via the keys `"alpha"`, `"CL"`, `"CD"`, `"CM"`). -/
structure RunData where
  alpha : List ℚ
  CL : List ℚ
  CD : List ℚ
  CM : List ℚ
deriving DecidableEq

/-- Python exception classes relevant to `Airfoil.__init__`:
the two caught from `get_NACA_coordinates`, the one caught from
`get_UIUC_coordinates`, the terminal
`Exception(f"Airfoil {name} had no coordinates assigned, ...")` (the spec's
`GeometryNotFoundError`, which carries the attempted name), and any other
exception (uncaught, so it propagates). -/
inductive PyError where
  | valueError
  | notImplementedError
  | fileNotFoundError
  | geometryNotFound (name : String)
  | other (msg : String)
deriving DecidableEq

/-- The fields of an `Airfoil` object after construction.  `polars`/`Res` are
absent (`none`) until `generate_polars_xfoil` assigns them. -/
structure Airfoil where
  name : String
  coordinates : List (ℚ × ℚ)
  x : List ℚ
  y : List ℚ
  polars : Option (List RunData) := none
  Res : Option (List ℚ) := none
deriving DecidableEq

/-- Embedding of `Airfoil.__init__` (airfoil.py lines 14–55).  The three
coordinate providers are external imports from `aerosandbox`, so they are
arguments: each either returns coordinates or raises.  With no path:
try NACA, catching only `ValueError`/`NotImplementedError`; then try UIUC,
catching only `FileNotFoundError` (a miss leaves `coordinates = None`).
With a path: call `get_file_coordinates` directly, no catching.  If no
coordinates were assigned, raise; otherwise derive `x`/`y`. -/
def airfoilInit (naca uiuc fileCoords : String → Except PyError (List (ℚ × ℚ)))
    (name : String) (coordinates : Option String) : Except PyError Airfoil :=
  let resolved : Except PyError (Option (List (ℚ × ℚ))) :=
    match coordinates with
    | none =>
      match naca name with
      | .ok c => .ok (some c)
      | .error .valueError | .error .notImplementedError =>
        match uiuc name with
        | .ok c => .ok (some c)
        | .error .fileNotFoundError => .ok none
        | .error e => .error e
      | .error e => .error e
    | some path =>
      match fileCoords path with
      | .ok c => .ok (some c)
      | .error e => .error e
  match resolved with
  | .error e => .error e
  | .ok none => .error (.geometryNotFound name)
  | .ok (some c) =>
    .ok { name := name, coordinates := c,
          x := c.map Prod.fst, y := c.map Prod.snd }

/-! ## `generate_polars_xfoil` (airfoil.py lines 165–209) -/

/-- The list comprehension
`[run_xfoil(self, …, Re, …) for Re in tqdm(Res, …)]`, instrumented with the
list of Reynolds numbers for which the solver is actually invoked.  Python
evaluates the comprehension left to right, so an exception from one
invocation propagates at once: later elements are not attempted. -/
def sweepRunsTrace {ε : Type} (solver : ℚ → Except ε RunData) :
    List ℚ → List ℚ × Except ε (List RunData)
  | [] => ([], .ok [])
  | re :: rest =>
    match solver re with
    | .error e => ([re], .error e)
    | .ok d =>
      let (tr, r) := sweepRunsTrace solver rest
      (re :: tr, r.map (fun ds => d :: ds))

/-- Embedding of `Airfoil.generate_polars_xfoil`.  The solver `run_xfoil`
lives in `airfoil_toolkit/xfoil.py` (outside the sources under study) and may
raise, so it is an argument.  On success the method assigns `self.polars` and
`self.Res` and returns `self.polars`; we return the updated object together
with the returned value.  `min_points_to_converged` is accepted but never
read: the convergence check below the `return` is commented out. -/
def generate_polars_xfoil {ε : Type} (af : Airfoil)
    (alpha_i alpha_f alpha_step : ℚ) (Res : List ℚ)
    (n_iter min_points_to_converged : Nat) (working_directory : Option String)
    (run_xfoil : Airfoil → ℚ → ℚ → ℚ → ℚ → Nat → Option String →
      Except ε RunData) :
    Except ε (Airfoil × List RunData) :=
  match (sweepRunsTrace
      (fun re => run_xfoil af alpha_i alpha_f alpha_step re n_iter
        working_directory) Res).2 with
  | .error e => .error e
  | .ok run_datas =>
    .ok ({ af with polars := some run_datas, Res := some Res }, run_datas)

/-- The Reynolds numbers for which `generate_polars_xfoil` actually invokes
the solver, in invocation order. -/
def generate_polars_xfoil_trace {ε : Type} (af : Airfoil)
    (alpha_i alpha_f alpha_step : ℚ) (Res : List ℚ)
    (n_iter _min_points_to_converged : Nat) (working_directory : Option String)
    (run_xfoil : Airfoil → ℚ → ℚ → ℚ → ℚ → Nat → Option String →
      Except ε RunData) : List ℚ :=
  (sweepRunsTrace
      (fun re => run_xfoil af alpha_i alpha_f alpha_step re n_iter
        working_directory) Res).1

/-! ## Concrete fixtures for witnesses and counterexamples -/

/-- A sample converged polar record. -/
def runDataA : RunData := ⟨[0, 1], [2, 3], [4, 5], [6, 7]⟩

/-- A sample constructed airfoil object. -/
def af0 : Airfoil :=
  { name := "NACA 0012", coordinates := [(1, 0), (0, 0), (1, 0)],
    x := [1, 0, 1], y := [0, 0, 0] }

/-- A solver whose invocation raises exactly at `Re = 100000`. -/
def solverFailAt1e5 :
    Airfoil → ℚ → ℚ → ℚ → ℚ → Nat → Option String → Except String RunData :=
  fun _ _ _ _ re _ _ =>
    if re = 100000 then .error "XFoil run crashed" else .ok runDataA

/-- A solver whose every invocation raises. -/
def solverAlwaysFails :
    Airfoil → ℚ → ℚ → ℚ → ℚ → Nat → Option String → Except String RunData :=
  fun _ _ _ _ _ _ _ => .error "XFoil run crashed"

/-- A solver whose every invocation succeeds. -/
def solverAlwaysOk :
    Airfoil → ℚ → ℚ → ℚ → ℚ → Nat → Option String → Except String RunData :=
  fun _ _ _ _ _ _ _ => .ok runDataA

/-- A NACA provider that recognises every name. -/
def nacaOk : String → Except PyError (List (ℚ × ℚ)) :=
  fun _ => .ok [(1, 0), (0, 0), (1, 0)]

/-- A NACA provider that recognises no name (raises `ValueError`). -/
def nacaMiss : String → Except PyError (List (ℚ × ℚ)) :=
  fun _ => .error .valueError

/-- A UIUC provider that finds no name (raises `FileNotFoundError`). -/
def uiucMiss : String → Except PyError (List (ℚ × ℚ)) :=
  fun _ => .error .fileNotFoundError

/-- A UIUC provider that finds every name. -/
def uiucOk : String → Except PyError (List (ℚ × ℚ)) :=
  fun _ => .ok [(0, 0), (1, 1)]

/-- A file reader that fails on every path. -/
def fileErr : String → Except PyError (List (ℚ × ℚ)) :=
  fun _ => .error (.other "coordinate file parse failure")

/-- Spec-side characterisation of one `"%f"` numeral: an optional leading
`'-'`, then one or more digits, `'.'`, and exactly six digits. -/
def isSixDecimalFixed (s : String) : Bool :=
  let cs := if s.data.head? = some '-' then s.data.tail else s.data
  match splitOnChar '.' cs with
  | [as, bs] =>
    !as.isEmpty && as.all Char.isDigit && (bs.length == 6) && bs.all Char.isDigit
  | _ => false

theorem natToDigitsAux_congr : ∀ f1 n, n ≤ f1 → ∀ f2, n ≤ f2 →
    natToDigitsAux f1 n = natToDigitsAux f2 n := by
  intro f1
  induction f1 with
  | zero =>
    intro n hn f2 _
    have : n = 0 := by omega
    subst this
    cases f2 <;> simp [natToDigitsAux]
  | succ f1 ih =>
    intro n hn f2 hn2
    cases f2 with
    | zero =>
      have : n = 0 := by omega
      subst this
      simp [natToDigitsAux]
    | succ g =>
      show (if n < 10 then [n] else natToDigitsAux f1 (n / 10) ++ [n % 10]) =
        (if n < 10 then [n] else natToDigitsAux g (n / 10) ++ [n % 10])
      by_cases h : n < 10
      · simp [h]
      · have hdiv : n / 10 < n := Nat.div_lt_self (by omega) (by omega)
        rw [if_neg h, if_neg h, ih (n / 10) (by omega) g (by omega)]

theorem natToDigits_eq (n : Nat) :
    natToDigits n = if n < 10 then [n] else natToDigits (n / 10) ++ [n % 10] := by
  by_cases h : n < 10
  · rw [if_pos h]
    unfold natToDigits
    cases n with
    | zero => simp [natToDigitsAux]
    | succ k => simp [natToDigitsAux, h]
  · rw [if_neg h]
    have hdiv : n / 10 < n := Nat.div_lt_self (by omega) (by omega)
    unfold natToDigits
    cases n with
    | zero => omega
    | succ k =>
      show (if k + 1 < 10 then [k + 1] else natToDigitsAux k ((k + 1) / 10) ++ [(k + 1) % 10]) = _
      rw [if_neg h, natToDigitsAux_congr k ((k + 1) / 10) (by omega) ((k + 1) / 10) le_rfl]

theorem digitsVal_append_singleton (ds : List Nat) (d : Nat) :
    digitsVal (ds ++ [d]) = digitsVal ds * 10 + d := by
  simp [digitsVal, List.foldl_append]

theorem digitsVal_natToDigits (n : Nat) : digitsVal (natToDigits n) = n := by
  induction n using Nat.strong_induction_on with
  | _ n ih =>
    rw [natToDigits_eq]
    by_cases h : n < 10
    · simp [h, digitsVal]
    · rw [if_neg h, digitsVal_append_singleton,
        ih (n / 10) (Nat.div_lt_self (by omega) (by omega))]
      omega

theorem natToDigits_lt (n : Nat) : ∀ d ∈ natToDigits n, d < 10 := by
  induction n using Nat.strong_induction_on with
  | _ n ih =>
    rw [natToDigits_eq]
    by_cases h : n < 10
    · simp [h]
    · rw [if_neg h]
      intro d hd
      rcases List.mem_append.1 hd with h1 | h1
      · exact ih (n / 10) (Nat.div_lt_self (by omega) (by omega)) d h1
      · simp at h1; omega

theorem natToDigits_ne_nil (n : Nat) : natToDigits n ≠ [] := by
  rw [natToDigits_eq]
  by_cases h : n < 10 <;> simp [h]

theorem natToDigits_length_le (k : Nat) :
    ∀ n, n < 10 ^ (k + 1) → (natToDigits n).length ≤ k + 1 := by
  induction k with
  | zero =>
    intro n hn
    rw [natToDigits_eq, if_pos (by simpa using hn)]
    simp
  | succ k ih =>
    intro n hn
    rw [natToDigits_eq]
    by_cases h : n < 10
    · simp [h]
    · rw [if_neg h]
      have hdiv : n / 10 < 10 ^ (k + 1) := by
        rw [Nat.div_lt_iff_lt_mul (by omega)]
        calc n < 10 ^ (k + 1 + 1) := hn
        _ = 10 ^ (k + 1) * 10 := by ring
      simpa using ih (n / 10) hdiv

theorem digit_facts : ∀ d, d < 10 →
    (digitChar d).isDigit = true ∧ (digitChar d).toNat = 48 + d ∧
    digitChar d ≠ '.' ∧ digitChar d ≠ '-' ∧ digitChar d ≠ ' ' ∧
    digitChar d ≠ '\n' := by decide

theorem splitOnChar_ne_nil (c : Char) (xs : List Char) : splitOnChar c xs ≠ [] := by
  induction xs with
  | nil => simp [splitOnChar]
  | cons x xs ih =>
    rw [splitOnChar]
    rcases h : splitOnChar c xs with _ | ⟨y, ys⟩
    · simp
    · by_cases hx : x = c <;> simp [hx]

theorem splitOnChar_no_sep (c : Char) (p : List Char) (hp : c ∉ p) :
    splitOnChar c p = [p] := by
  induction p with
  | nil => rfl
  | cons x xs ih =>
    have hx : x ≠ c := fun h => hp (h ▸ List.mem_cons_self x xs)
    have hxs : c ∉ xs := fun h => hp (List.mem_cons_of_mem _ h)
    rw [splitOnChar, ih hxs]
    simp [hx]

theorem splitOnChar_append_sep (c : Char) (p ys : List Char) (hp : c ∉ p) :
    splitOnChar c (p ++ c :: ys) = p :: splitOnChar c ys := by
  induction p with
  | nil =>
    rcases h : splitOnChar c ys with _ | ⟨z, zs⟩
    · exact absurd h (splitOnChar_ne_nil c ys)
    · simp [splitOnChar, h]
  | cons x xs ih =>
    have hx : x ≠ c := fun h => hp (h ▸ List.mem_cons_self x xs)
    have hxs : c ∉ xs := fun h => hp (List.mem_cons_of_mem _ h)
    have := ih hxs
    rw [List.cons_append, splitOnChar, this]
    rcases h : splitOnChar c ys with _ | ⟨z, zs⟩
    · exact absurd h (splitOnChar_ne_nil c ys)
    · simp [hx]

theorem splitOnChar_chIntercalate (c : Char) :
    ∀ parts : List (List Char), parts ≠ [] → (∀ p ∈ parts, c ∉ p) →
      splitOnChar c (chIntercalate c parts) = parts := by
  intro parts
  induction parts with
  | nil => intro h; exact absurd rfl h
  | cons p ps ih =>
    intro _ hall
    rcases ps with _ | ⟨q, qs⟩
    · exact splitOnChar_no_sep c p (hall p (by simp))
    · rw [show chIntercalate c (p :: q :: qs) = p ++ c :: chIntercalate c (q :: qs) from rfl,
        splitOnChar_append_sep c p _ (hall p (by simp)),
        ih (List.cons_ne_nil q qs) (fun r hr => hall r (List.mem_cons_of_mem _ hr))]

example : pyFormatF (0 : ℚ) = "0.000000" := by decide
example : pyFormatF (1 : ℚ) = "1.000000" := by decide
example : pyFormatF (-2 : ℚ) = "-2.000000" := by decide
example : pyFormatF (⟨5, 4, by decide, by decide⟩ : ℚ) = "1.250000" := by decide
example : pyFormatF (⟨-1, 2, by decide, by decide⟩ : ℚ) = "-0.500000" := by decide
example : pyFormatF (⟨-1, 1000000000, by decide, by decide⟩ : ℚ) = "-0.000000" := by
  decide
example : write_dat "NACA 0012" [(1, 0), (0, 0)] true =
    "NACA 0012\n1.000000 0.000000\n0.000000 0.000000" := by decide
example : parseCoordLine "17.000000 -3.000000" = some (17, -3) := by decide
example : (readDat "NACA 0012\n1.000000 0.000000\n0.000000 0.000000").map
    List.length = some 2 := by decide

/-! ## Sweep lemmas -/

theorem sweepRunsTrace_all_ok {ε : Type} (solver : ℚ → Except ε RunData)
    (f : ℚ → RunData) :
    ∀ Res : List ℚ, (∀ r ∈ Res, solver r = .ok (f r)) →
      sweepRunsTrace solver Res = (Res, .ok (Res.map f)) := by
  intro Res
  induction Res with
  | nil => intro _; rfl
  | cons re rest ih =>
    intro h
    have hre : solver re = .ok (f re) := h re (by simp)
    rw [sweepRunsTrace, hre, ih (fun r hr => h r (List.mem_cons_of_mem _ hr))]
    rfl

theorem sweepRunsTrace_fails {ε : Type} (solver : ℚ → Except ε RunData)
    (e : ε) :
    ∀ (pre : List ℚ) (reF : ℚ) (post : List ℚ),
      (∀ r ∈ pre, ∃ d, solver r = .ok d) → solver reF = .error e →
      sweepRunsTrace solver (pre ++ reF :: post) = (pre ++ [reF], .error e) := by
  intro pre
  induction pre with
  | nil =>
    intro reF post _ hfail
    rw [List.nil_append, sweepRunsTrace, hfail]
    rfl
  | cons p ps ih =>
    intro reF post hok hfail
    obtain ⟨d, hd⟩ := hok p (by simp)
    rw [List.cons_append, sweepRunsTrace, hd,
      ih reF post (fun r hr => hok r (List.mem_cons_of_mem _ hr)) hfail]
    rfl

/-! ## Claim theorems: polar sweep -/

/-- C1, counterexample.  On the sweep `[1e4, 1e5, 1e6]` with a solver that
raises exactly at `Re = 1e5`, `generate_polars_xfoil` itself raises (the
exception from the list comprehension propagates), contradicting the claim
that a single failed invocation never aborts the remaining sweep. -/
theorem failed_run_aborts_sweep :
    generate_polars_xfoil af0 0 10 1 [10000, 100000, 1000000] 100 20 none
      solverFailAt1e5 = Except.error "XFoil run crashed" := by rfl

/-- C1, amended: if the solver invocation for one Reynolds number in the list
raises, `generate_polars_xfoil` raises that very exception; the Reynolds
numbers before the failing one are the only ones attempted — those after it
are never invoked. -/
theorem sweep_propagates_first_failure {ε : Type} (af : Airfoil)
    (αi αf αs : ℚ) (pre post : List ℚ) (reF : ℚ) (n m : Nat)
    (wd : Option String)
    (rx : Airfoil → ℚ → ℚ → ℚ → ℚ → Nat → Option String → Except ε RunData)
    (e : ε)
    (hpre : ∀ r ∈ pre, ∃ d, rx af αi αf αs r n wd = .ok d)
    (hfail : rx af αi αf αs reF n wd = .error e) :
    generate_polars_xfoil af αi αf αs (pre ++ reF :: post) n m wd rx =
      .error e ∧
    generate_polars_xfoil_trace af αi αf αs (pre ++ reF :: post) n m wd rx =
      pre ++ [reF] := by
  have h := sweepRunsTrace_fails (fun re => rx af αi αf αs re n wd) e pre reF
    post hpre hfail
  constructor
  · rw [generate_polars_xfoil, h]
  · rw [generate_polars_xfoil_trace, h]

theorem sweep_propagates_first_failure_witness :
    generate_polars_xfoil af0 0 10 1 ([10000] ++ 100000 :: [1000000]) 100 20
      none solverFailAt1e5 = .error "XFoil run crashed" ∧
    generate_polars_xfoil_trace af0 0 10 1 ([10000] ++ 100000 :: [1000000])
      100 20 none solverFailAt1e5 = [10000] ++ [100000] :=
  sweep_propagates_first_failure af0 0 10 1 [10000] [1000000] 100000 100 20
    none solverFailAt1e5 "XFoil run crashed"
    (by intro r hr; exact ⟨runDataA, by simp at hr; subst hr; rfl⟩)
    (by rfl)

/-- C4, counterexample.  When the (sole) requested Reynolds number's solver
invocation fails, the sweep returns no dataset at all — it raises — so the
failed Reynolds number does not "still occupy its slot". -/
theorem failed_re_occupies_no_slot :
    generate_polars_xfoil af0 0 10 1 [10000] 100 20 none solverAlwaysFails =
      Except.error "XFoil run crashed" := by rfl

/-- C4, amended: when every solver invocation succeeds, the dataset is a
list with exactly one record per requested Reynolds number, in the same
order (the i-th record is the run for the i-th Reynolds number), and the
Reynolds numbers themselves are stored alongside in `self.Res`; when an
invocation fails the sweep raises instead of recording anything. -/
theorem sweep_dataset_matches_requested {ε : Type} (af : Airfoil)
    (αi αf αs : ℚ) (Res : List ℚ) (n m : Nat) (wd : Option String)
    (rx : Airfoil → ℚ → ℚ → ℚ → ℚ → Nat → Option String → Except ε RunData)
    (f : ℚ → RunData)
    (hok : ∀ r ∈ Res, rx af αi αf αs r n wd = .ok (f r)) :
    generate_polars_xfoil af αi αf αs Res n m wd rx =
      .ok ({ af with polars := some (Res.map f), Res := some Res },
        Res.map f) := by
  rw [generate_polars_xfoil,
    sweepRunsTrace_all_ok (fun re => rx af αi αf αs re n wd) f Res hok]

theorem sweep_dataset_matches_requested_witness :
    generate_polars_xfoil af0 0 10 1 [10000, 1000000] 100 20 none
      solverAlwaysOk =
      .ok ({ af0 with
        polars := some (([10000, 1000000] : List ℚ).map (fun _ => runDataA)),
        Res := some [10000, 1000000] },
        ([10000, 1000000] : List ℚ).map (fun _ => runDataA)) :=
  sweep_dataset_matches_requested af0 0 10 1 [10000, 1000000] 100 20 none
    solverAlwaysOk (fun _ => runDataA) (fun r _ => rfl)

/-- C5: the result of `generate_polars_xfoil` — and the sequence of solver
invocations it performs — do not depend on `min_points_to_converged` (the
parameter is accepted but the convergence logic is commented out). -/
theorem sweep_ignores_min_points {ε : Type} (af : Airfoil) (αi αf αs : ℚ)
    (Res : List ℚ) (n m₁ m₂ : Nat) (wd : Option String)
    (rx : Airfoil → ℚ → ℚ → ℚ → ℚ → Nat → Option String → Except ε RunData) :
    generate_polars_xfoil af αi αf αs Res n m₁ wd rx =
      generate_polars_xfoil af αi αf αs Res n m₂ wd rx ∧
    generate_polars_xfoil_trace af αi αf αs Res n m₁ wd rx =
      generate_polars_xfoil_trace af αi αf αs Res n m₂ wd rx :=
  ⟨rfl, rfl⟩

/-- C6, counterexample.  An empty Reynolds list is not rejected: the sweep
returns normally with an empty dataset (and attaches it), instead of raising
up front. -/
theorem empty_re_list_returns_empty :
    generate_polars_xfoil af0 0 10 1 ([] : List ℚ) 100 20 none
      solverAlwaysFails =
      Except.ok ({ af0 with polars := some [], Res := some [] }, []) := by
  rfl

/-- C6, amended: an empty Reynolds list is not a fatal setup error; the sweep
performs no solver invocation and returns (and attaches) an empty dataset. -/
theorem empty_re_list_no_raise {ε : Type} (af : Airfoil) (αi αf αs : ℚ)
    (n m : Nat) (wd : Option String)
    (rx : Airfoil → ℚ → ℚ → ℚ → ℚ → Nat → Option String → Except ε RunData) :
    generate_polars_xfoil af αi αf αs [] n m wd rx =
      .ok ({ af with polars := some [], Res := some [] }, []) ∧
    generate_polars_xfoil_trace af αi αf αs [] n m wd rx = [] :=
  ⟨rfl, rfl⟩

/-- C9: a polar sweep that returns leaves `name`, `coordinates`, `x`, `y`
unchanged; the only fields it writes are the attached dataset and its
Reynolds list, and it overwrites both wholesale (whatever dataset was
attached before, the new one is exactly the runs just returned). -/
theorem sweep_frame_effect {ε : Type} (af : Airfoil) (αi αf αs : ℚ)
    (Res : List ℚ) (n m : Nat) (wd : Option String)
    (rx : Airfoil → ℚ → ℚ → ℚ → ℚ → Nat → Option String → Except ε RunData)
    (af' : Airfoil) (ds : List RunData)
    (h : generate_polars_xfoil af αi αf αs Res n m wd rx = .ok (af', ds)) :
    af'.name = af.name ∧ af'.coordinates = af.coordinates ∧
    af'.x = af.x ∧ af'.y = af.y ∧
    af'.polars = some ds ∧ af'.Res = some Res := by
  rw [generate_polars_xfoil] at h
  rcases hs : (sweepRunsTrace
      (fun re => rx af αi αf αs re n wd) Res).2 with e | rd
  · rw [hs] at h; exact absurd h (by simp)
  · rw [hs] at h
    simp only [Except.ok.injEq, Prod.mk.injEq] at h
    obtain ⟨haf, hds⟩ := h
    subst haf; subst hds
    simp

theorem sweep_frame_effect_witness :
    ({ af0 with polars := some [runDataA], Res := some [10000] } :
        Airfoil).name = af0.name ∧
    ({ af0 with
        polars := some [runDataA], Res := some [10000] } : Airfoil).coordinates = af0.coordinates ∧
    ({ af0 with
        polars := some [runDataA], Res := some [10000] } : Airfoil).x = af0.x ∧
    ({ af0 with
        polars := some [runDataA], Res := some [10000] } : Airfoil).y = af0.y ∧
    ({ af0 with
        polars := some [runDataA], Res := some [10000] } : Airfoil).polars = some [runDataA] ∧
    ({ af0 with
        polars := some [runDataA], Res := some [10000] } : Airfoil).Res = some [10000] :=
  sweep_frame_effect af0 0 10 1 [10000] 100 20 none solverAlwaysOk
    { af0 with polars := some [runDataA], Res := some [10000] } [runDataA]
    (by rfl)

/-! ## Claim theorems: construction / resolution chain -/

/-- C2: with a coordinates path, construction is decided entirely by the
file reader — the parametric and database providers are never invoked (the
result does not depend on them), and a file-reader failure surfaces as-is;
with no path, for every name the parametric provider recognises, the result
does not depend on the database provider, and construction returns that
parametric geometry. -/
theorem resolution_chain_short_circuit
    (naca₁ naca₂ uiuc₁ uiuc₂ fileC : String → Except PyError (List (ℚ × ℚ)))
    (name path : String) :
    (airfoilInit naca₁ uiuc₁ fileC name (some path) =
      airfoilInit naca₂ uiuc₂ fileC name (some path)) ∧
    (∀ e, fileC path = .error e →
      airfoilInit naca₁ uiuc₁ fileC name (some path) = .error e) ∧
    (∀ c, naca₁ name = .ok c →
      airfoilInit naca₁ uiuc₁ fileC name none =
        airfoilInit naca₁ uiuc₂ fileC name none ∧
      airfoilInit naca₁ uiuc₁ fileC name none =
        .ok { name := name, coordinates := c,
              x := c.map Prod.fst, y := c.map Prod.snd }) := by
  refine ⟨rfl, fun e he => ?_, fun c hc => ?_⟩
  · rw [airfoilInit]
    simp only [he]
  · constructor
    · rw [airfoilInit, airfoilInit]
      simp only [hc]
    · rw [airfoilInit]
      simp only [hc]

theorem resolution_chain_short_circuit_witness :
    (airfoilInit nacaOk uiucMiss fileErr "0012" (some "a.dat") =
      airfoilInit nacaMiss uiucOk fileErr "0012" (some "a.dat")) ∧
    (airfoilInit nacaOk uiucMiss fileErr "0012" (some "a.dat") =
      .error (.other "coordinate file parse failure")) ∧
    (airfoilInit nacaOk uiucMiss fileErr "0012" none =
      airfoilInit nacaOk uiucOk fileErr "0012" none) :=
  ⟨(resolution_chain_short_circuit nacaOk nacaMiss uiucMiss uiucOk fileErr
      "0012" "a.dat").1,
   (resolution_chain_short_circuit nacaOk nacaMiss uiucMiss uiucOk fileErr
      "0012" "a.dat").2.1 _ rfl,
   ((resolution_chain_short_circuit nacaOk nacaMiss uiucMiss uiucOk fileErr
      "0012" "a.dat").2.2 _ rfl).1⟩

/-- C3: when the parametric provider declines the name (with one of the two
caught exception types) and the database provider misses it
(`FileNotFoundError`), construction raises the geometry-not-found error
carrying the attempted name; no airfoil object (hence no coordinate state)
results. -/
theorem unresolvable_name_raises
    (naca uiuc fileC : String → Except PyError (List (ℚ × ℚ)))
    (name : String)
    (hn : naca name = .error .valueError ∨
      naca name = .error .notImplementedError)
    (hu : uiuc name = .error .fileNotFoundError) :
    airfoilInit naca uiuc fileC name none =
      .error (.geometryNotFound name) := by
  rcases hn with h | h <;> · rw [airfoilInit]; simp only [h, hu]

theorem unresolvable_name_raises_witness :
    airfoilInit nacaMiss uiucMiss fileErr "mystery-foil" none =
      .error (.geometryNotFound "mystery-foil") :=
  unresolvable_name_raises nacaMiss uiucMiss fileErr "mystery-foil"
    (Or.inl rfl) rfl

/-! ## Lemmas about the `"%f"` format and its parse -/

theorem isDigit_ne_special (c : Char) (h : c.isDigit = true) :
    c ≠ '.' ∧ c ≠ '-' ∧ c ≠ ' ' ∧ c ≠ '\n' := by
  refine ⟨fun he => ?_, fun he => ?_, fun he => ?_, fun he => ?_⟩ <;>
    · subst he; exact absurd h (by decide)

theorem digitChar_isDigit (d : Nat) (h : d < 10) :
    (digitChar d).isDigit = true := (digit_facts d h).1

theorem pad6_all_digit (m : Nat) : ∀ c ∈ pad6 m, c.isDigit = true := by
  intro c hc
  rcases List.mem_append.1 hc with h | h
  · rw [List.eq_of_mem_replicate h]; decide
  · obtain ⟨d, hd, rfl⟩ := List.mem_map.1 h
    exact digitChar_isDigit d (natToDigits_lt m d hd)

theorem intChars_all_digit (i : Nat) :
    ∀ c ∈ (natToDigits i).map digitChar, c.isDigit = true := by
  intro c hc
  obtain ⟨d, hd, rfl⟩ := List.mem_map.1 hc
  exact digitChar_isDigit d (natToDigits_lt i d hd)

theorem map_toNat48_digitChar (ds : List Nat) (hlt : ∀ d ∈ ds, d < 10) :
    (ds.map digitChar).map (fun c => c.toNat - 48) = ds := by
  induction ds with
  | nil => rfl
  | cons d rest ih =>
    have h1 := (digit_facts d (hlt d (by simp))).2.1
    simp only [List.map_cons, h1, List.cons.injEq]
    exact ⟨by omega, ih (fun x hx => hlt x (List.mem_cons_of_mem _ hx))⟩

theorem pyFormatChars_classes (q : ℚ) :
    ∀ c ∈ pyFormatChars q, c = '-' ∨ c = '.' ∨ c.isDigit = true := by
  intro c hc
  rw [pyFormatChars] at hc
  rcases List.mem_append.1 hc with h | h
  · rcases List.mem_append.1 h with h1 | h1
    · left
      by_cases hq : q < 0
      · rw [if_pos hq] at h1
        simpa using h1
      · rw [if_neg hq] at h1
        simp at h1
    · exact Or.inr (Or.inr (intChars_all_digit _ c h1))
  · rcases List.mem_cons.1 h with h2 | h2
    · exact Or.inr (Or.inl h2)
    · exact Or.inr (Or.inr (pad6_all_digit _ c h2))

theorem pyFormatChars_no_space (q : ℚ) : ' ' ∉ pyFormatChars q := by
  intro h
  rcases pyFormatChars_classes q ' ' h with h1 | h1 | h1
  · exact absurd h1 (by decide)
  · exact absurd h1 (by decide)
  · exact (isDigit_ne_special ' ' h1).2.2.1 rfl

theorem pyFormatChars_no_newline (q : ℚ) : '\n' ∉ pyFormatChars q := by
  intro h
  rcases pyFormatChars_classes q '\n' h with h1 | h1 | h1
  · exact absurd h1 (by decide)
  · exact absurd h1 (by decide)
  · exact (isDigit_ne_special '\n' h1).2.2.2 rfl

theorem pyFormatChars_ne_nil (q : ℚ) : pyFormatChars q ≠ [] := by
  rw [pyFormatChars]
  by_cases hq : q < 0 <;> simp [hq]

theorem parseDigits_map_digitChar (ds : List Nat) (hlt : ∀ d ∈ ds, d < 10)
    (hne : ds ≠ []) :
    parseDigits (ds.map digitChar) = some (digitsVal ds) := by
  rw [parseDigits, if_neg (by simpa using hne), if_pos]
  · rw [map_toNat48_digitChar ds hlt]
  · rw [List.all_eq_true]
    intro c hc
    obtain ⟨d, hd, rfl⟩ := List.mem_map.1 hc
    exact digitChar_isDigit d (hlt d hd)

theorem parseDigits_natToDigits (n : Nat) :
    parseDigits ((natToDigits n).map digitChar) = some n := by
  rw [parseDigits_map_digitChar (natToDigits n) (natToDigits_lt n)
    (natToDigits_ne_nil n), digitsVal_natToDigits]

theorem digitsVal_replicate_zero (k : Nat) (ds : List Nat) :
    digitsVal (List.replicate k 0 ++ ds) = digitsVal ds := by
  induction k with
  | zero => simp
  | succ k ih => simpa [digitsVal, List.replicate_succ] using ih

theorem pad6_length (m : Nat) (hm : m < 1000000) : (pad6 m).length = 6 := by
  have h6 : (natToDigits m).length ≤ 6 :=
    natToDigits_length_le 5 m (lt_of_lt_of_le hm (by norm_num))
  rw [pad6]
  simp only [List.length_append, List.length_replicate, List.length_map]
  omega

theorem parseDigits_pad6 (m : Nat) : parseDigits (pad6 m) = some m := by
  have hne : pad6 m ≠ [] := by
    rw [pad6]
    simp [natToDigits_ne_nil m]
  rw [parseDigits, if_neg (by simpa using hne), if_pos]
  · congr 1
    rw [pad6, List.map_append]
    have hrep : (List.replicate (6 - (natToDigits m).length) '0').map
        (fun c => c.toNat - 48) =
        List.replicate (6 - (natToDigits m).length) 0 := by
      rw [List.map_replicate]
      congr 1
    rw [hrep, map_toNat48_digitChar (natToDigits m) (natToDigits_lt m),
      digitsVal_replicate_zero, digitsVal_natToDigits]
  · rw [List.all_eq_true]
    exact fun c hc => pad6_all_digit m c hc

theorem splitOnChar_dot_pyBody (i f : Nat) :
    splitOnChar '.' ((natToDigits i).map digitChar ++ '.' :: pad6 f) =
      [(natToDigits i).map digitChar, pad6 f] := by
  rw [splitOnChar_append_sep, splitOnChar_no_sep]
  · intro h
    have := pad6_all_digit f '.' h
    exact (isDigit_ne_special '.' this).1 rfl
  · intro h
    have := intChars_all_digit i '.' h
    exact (isDigit_ne_special '.' this).1 rfl

theorem parseUnsigned_pyBody (i f : Nat) (hf : f < 1000000) :
    parseUnsigned ((natToDigits i).map digitChar ++ '.' :: pad6 f) =
      some (mkRat ((i : ℤ) * 10 ^ (6 : Nat) + (f : ℤ)) (10 ^ (6 : Nat))) := by
  have hstep : parseUnsigned ((natToDigits i).map digitChar ++ '.' :: pad6 f) =
      match parseDigits ((natToDigits i).map digitChar),
          parseDigits (pad6 f) with
      | some a, some b =>
        some (mkRat ((a : ℤ) * 10 ^ (pad6 f).length + (b : ℤ))
          (10 ^ (pad6 f).length))
      | _, _ => none := by
    rw [parseUnsigned, splitOnChar_dot_pyBody]
  rw [hstep, parseDigits_natToDigits, parseDigits_pad6, pad6_length f hf]

theorem head_pyBody_ne_dash (i f : Nat) :
    ((natToDigits i).map digitChar ++ '.' :: pad6 f).head? ≠ some '-' := by
  rcases hd : natToDigits i with _ | ⟨d, ds⟩
  · exact absurd hd (natToDigits_ne_nil i)
  · have hdig : (digitChar d).isDigit = true :=
      digitChar_isDigit d (natToDigits_lt i d (by rw [hd]; simp))
    simp only [List.map_cons, List.cons_append, List.head?_cons]
    intro h
    simp only [Option.some.injEq] at h
    exact (isDigit_ne_special (digitChar d) hdig).2.1 h

theorem fixed6Num_mod_lt (q : ℚ) : fixed6Num q % 1000000 < 1000000 :=
  Nat.mod_lt _ (by norm_num)

theorem fixed6Num_split (q : ℚ) :
    ((fixed6Num q / 1000000 : Nat) : ℤ) * 10 ^ (6 : Nat) +
      ((fixed6Num q % 1000000 : Nat) : ℤ) = ((fixed6Num q : Nat) : ℤ) := by
  have h : (10 : ℤ) ^ (6 : Nat) = 1000000 := by norm_num
  rw [h]
  omega

theorem parseNumToken_pyFormatChars (q : ℚ) :
    parseNumToken (pyFormatChars q) = some (round6 q) := by
  have hbody := parseUnsigned_pyBody (fixed6Num q / 1000000)
    (fixed6Num q % 1000000) (fixed6Num_mod_lt q)
  rw [fixed6Num_split q] at hbody
  by_cases hq : q < 0
  · have hchars : pyFormatChars q =
        '-' :: ((natToDigits (fixed6Num q / 1000000)).map digitChar ++
          '.' :: pad6 (fixed6Num q % 1000000)) := by
      rw [pyFormatChars, if_pos hq]
      rfl
    rw [hchars, parseNumToken, if_pos (by rw [List.head?_cons]),
      List.tail_cons, hbody]
    refine congrArg some ?_
    rw [round6, if_pos hq, Rat.mkRat_eq_div]
    push_cast
    ring
  · have hchars : pyFormatChars q =
        (natToDigits (fixed6Num q / 1000000)).map digitChar ++
          '.' :: pad6 (fixed6Num q % 1000000) := by
      rw [pyFormatChars, if_neg hq]
      rfl
    rw [hchars, parseNumToken,
      if_neg (head_pyBody_ne_dash (fixed6Num q / 1000000)
        (fixed6Num q % 1000000)), hbody]
    congr 1
    rw [round6, if_neg hq, Rat.mkRat_eq_div]
    push_cast
    ring

/-! ## Line-level lemmas -/

theorem coordLine_data (p : ℚ × ℚ) :
    (coordLine p).data = pyFormatChars p.1 ++ ' ' :: pyFormatChars p.2 := by
  rw [coordLine, pyFormatF, pyFormatF]
  rw [String.data_append, String.data_append]
  simp

theorem parseCoordLine_coordLine (p : ℚ × ℚ) :
    parseCoordLine (coordLine p) = some (round6 p.1, round6 p.2) := by
  have hsplit : splitOnChar ' ' ((coordLine p).data) =
      [pyFormatChars p.1, pyFormatChars p.2] := by
    rw [coordLine_data,
      splitOnChar_append_sep ' ' _ _ (pyFormatChars_no_space p.1),
      splitOnChar_no_sep ' ' _ (pyFormatChars_no_space p.2)]
  have hfilter : ([pyFormatChars p.1, pyFormatChars p.2]).filter
      (fun t => !t.isEmpty) = [pyFormatChars p.1, pyFormatChars p.2] := by
    rw [List.filter_cons_of_pos, List.filter_cons_of_pos, List.filter_nil]
    · simp [pyFormatChars_ne_nil p.2]
    · simp [pyFormatChars_ne_nil p.1]
  have hstep : parseCoordLine (coordLine p) =
      match parseNumToken (pyFormatChars p.1),
          parseNumToken (pyFormatChars p.2) with
      | some x, some y => some (x, y)
      | _, _ => none := by
    rw [parseCoordLine, hsplit, hfilter]
  rw [hstep, parseNumToken_pyFormatChars, parseNumToken_pyFormatChars]

theorem joinNL_data : ∀ l : List String,
    (joinNL l).data = chIntercalate '\n' (l.map String.data) := by
  intro l
  induction l with
  | nil => rfl
  | cons s rest ih =>
    rcases rest with _ | ⟨t, rs⟩
    · rfl
    · rw [show joinNL (s :: t :: rs) = s ++ "\n" ++ joinNL (t :: rs) from rfl,
        String.data_append, String.data_append, ih, List.append_assoc]
      rfl

theorem mk_data_map (ps : List String) :
    (ps.map String.data).map String.mk = ps := by
  induction ps with
  | nil => rfl
  | cons p pr ih => simp only [List.map_cons, ih]

theorem datLines_joinNL (parts : List String) (h0 : parts ≠ [])
    (hnl : ∀ p ∈ parts, '\n' ∉ p.data) (hne : (joinNL parts).data ≠ []) :
    datLines (joinNL parts) = parts := by
  rw [datLines, if_neg (by simpa using hne), joinNL_data,
    splitOnChar_chIntercalate '\n' (parts.map String.data)
      (by simpa using h0)
      (by intro p hp
          obtain ⟨s, hs, rfl⟩ := List.mem_map.1 hp
          exact hnl s hs),
    mk_data_map]

theorem joinNL_cons_cons_data_ne_nil (s t : String) (rs : List String) :
    (joinNL (s :: t :: rs)).data ≠ [] := by
  rw [show joinNL (s :: t :: rs) = s ++ "\n" ++ joinNL (t :: rs) from rfl,
    String.data_append, String.data_append]
  simp

theorem coordLine_data_ne_nil (p : ℚ × ℚ) : (coordLine p).data ≠ [] := by
  rw [coordLine_data]
  simp

theorem coordLine_no_newline (p : ℚ × ℚ) : '\n' ∉ (coordLine p).data := by
  rw [coordLine_data]
  intro h
  rcases List.mem_append.1 h with h1 | h1
  · exact pyFormatChars_no_newline p.1 h1
  · rcases List.mem_cons.1 h1 with h2 | h2
    · exact absurd h2 (by decide)
    · exact pyFormatChars_no_newline p.2 h2

theorem datLines_write_dat (n : String) (C : List (ℚ × ℚ)) (b : Bool)
    (hnl : b = true → '\n' ∉ n.data)
    (hempty : b = true → C = [] → n ≠ "") :
    datLines (write_dat n C b) = (if b then [n] else []) ++ C.map coordLine := by
  have hall : ∀ p ∈ (if b then [n] else []) ++ C.map coordLine,
      '\n' ∉ p.data := by
    intro p hp
    rcases List.mem_append.1 hp with h | h
    · cases b with
      | false => simp at h
      | true =>
        simp only [if_pos] at h
        rw [List.mem_singleton.1 h]
        exact hnl rfl
    · obtain ⟨c, _, rfl⟩ := List.mem_map.1 h
      exact coordLine_no_newline c
  cases b with
  | false =>
    rcases C with _ | ⟨c, cs⟩
    · rfl
    · rcases cs with _ | ⟨c2, cs2⟩
      · rw [write_dat]
        exact datLines_joinNL _ (by simp) hall (coordLine_data_ne_nil c)
      · rw [write_dat]
        exact datLines_joinNL _ (by simp) hall
          (joinNL_cons_cons_data_ne_nil _ _ _)
  | true =>
    rcases C with _ | ⟨c, cs⟩
    · have hn0 : n ≠ "" := hempty rfl rfl
      rw [write_dat]
      refine datLines_joinNL _ (by simp) hall ?_
      intro hd
      exact hn0 (String.ext hd)
    · rw [write_dat]
      exact datLines_joinNL _ (by simp) hall
        (joinNL_cons_cons_data_ne_nil _ _ _)

/-! ## The half-ulp precision bound of the `"%f"` rounding -/

theorem round6_abs_sub_le (q : ℚ) : |round6 q - q| ≤ 1 / 2000000 := by
  have hden : 0 < q.den := Nat.pos_of_ne_zero q.den_nz
  have hD : (0 : ℚ) < (q.den : ℚ) := by exact_mod_cast hden
  -- integer bracketing of the rounding division
  have h1 : fixed6Num q * (2 * q.den) ≤
      2 * q.num.natAbs * 1000000 + q.den := by
    rw [fixed6Num]
    exact Nat.div_mul_le_self _ _
  have h2 : 2 * q.num.natAbs * 1000000 + q.den <
      (fixed6Num q + 1) * (2 * q.den) := by
    rw [fixed6Num]
    have hy : 0 < 2 * q.den := by omega
    calc 2 * q.num.natAbs * 1000000 + q.den
        = 2 * q.den * ((2 * q.num.natAbs * 1000000 + q.den) / (2 * q.den)) +
          (2 * q.num.natAbs * 1000000 + q.den) % (2 * q.den) :=
          (Nat.div_add_mod _ _).symm
      _ < 2 * q.den * ((2 * q.num.natAbs * 1000000 + q.den) / (2 * q.den)) +
          2 * q.den := Nat.add_lt_add_left (Nat.mod_lt _ hy) _
      _ = ((2 * q.num.natAbs * 1000000 + q.den) / (2 * q.den) + 1) *
          (2 * q.den) := by ring
  have h1Q : (fixed6Num q : ℚ) * (2 * (q.den : ℚ)) ≤
      2 * (q.num.natAbs : ℚ) * 1000000 + (q.den : ℚ) := by exact_mod_cast h1
  have h2Q : 2 * (q.num.natAbs : ℚ) * 1000000 + (q.den : ℚ) <
      ((fixed6Num q : ℚ) + 1) * (2 * (q.den : ℚ)) := by exact_mod_cast h2
  have habs : |q| = (q.num.natAbs : ℚ) / (q.den : ℚ) := by
    conv_lhs => rw [← Rat.num_div_den q]
    rw [abs_div, abs_of_pos hD, Int.cast_natAbs, Int.cast_abs]
  have key : |(fixed6Num q : ℚ) / 1000000 -
      (q.num.natAbs : ℚ) / (q.den : ℚ)| ≤ 1 / 2000000 := by
    rw [div_sub_div _ _ (by norm_num : (1000000 : ℚ) ≠ 0) (ne_of_gt hD),
      abs_div, abs_of_pos (by positivity : (0 : ℚ) < 1000000 * (q.den : ℚ)),
      div_le_div_iff (by positivity) (by norm_num : (0 : ℚ) < 2000000)]
    have hub : (fixed6Num q : ℚ) * (q.den : ℚ) -
        1000000 * (q.num.natAbs : ℚ) ≤ (q.den : ℚ) / 2 := by linarith
    have hlb : -((q.den : ℚ) / 2) ≤ (fixed6Num q : ℚ) * (q.den : ℚ) -
        1000000 * (q.num.natAbs : ℚ) := by linarith
    have habs2 : |(fixed6Num q : ℚ) * (q.den : ℚ) -
        1000000 * (q.num.natAbs : ℚ)| ≤ (q.den : ℚ) / 2 :=
      abs_le.2 ⟨hlb, hub⟩
    calc |(fixed6Num q : ℚ) * (q.den : ℚ) - 1000000 * (q.num.natAbs : ℚ)| *
        2000000
        ≤ ((q.den : ℚ) / 2) * 2000000 :=
          mul_le_mul_of_nonneg_right habs2 (by norm_num)
      _ = 1 * (1000000 * (q.den : ℚ)) := by ring
  obtain ⟨N, hN⟩ : ∃ N : ℚ, ((fixed6Num q : ℚ)) = N := ⟨_, rfl⟩
  obtain ⟨A, hA⟩ : ∃ A : ℚ, ((q.num.natAbs : ℚ)) = A := ⟨_, rfl⟩
  obtain ⟨D, hDD⟩ : ∃ D : ℚ, ((q.den : ℚ)) = D := ⟨_, rfl⟩
  rw [hA, hDD] at habs
  rw [hN, hA, hDD] at key
  by_cases hq : q < 0
  · have hqv : q = -(A / D) := by rw [← habs, abs_of_neg hq]; ring
    rw [round6, if_pos hq, hN]
    have hrw : -1 * N / 1000000 - q = -(N / 1000000 - A / D) := by
      rw [hqv]; ring
    rw [hrw, abs_neg]
    exact key
  · have hqv : q = A / D := by rw [← habs, abs_of_nonneg (not_lt.1 hq)]
    rw [round6, if_neg hq, hN]
    have hrw : 1 * N / 1000000 - q = N / 1000000 - A / D := by
      rw [hqv]; ring
    rw [hrw]
    exact key

/-! ## Claim theorems: the `.dat` text format -/

theorem pyFormat_isSixDecimalFixed (q : ℚ) :
    isSixDecimalFixed (pyFormatF q) = true := by
  have hstrip : (if (pyFormatF q).data.head? = some '-' then
      (pyFormatF q).data.tail else (pyFormatF q).data) =
      (natToDigits (fixed6Num q / 1000000)).map digitChar ++
        '.' :: pad6 (fixed6Num q % 1000000) := by
    by_cases hq : q < 0
    · have hchars : (pyFormatF q).data =
          '-' :: ((natToDigits (fixed6Num q / 1000000)).map digitChar ++
            '.' :: pad6 (fixed6Num q % 1000000)) := by
        rw [show (pyFormatF q).data = pyFormatChars q from rfl,
          pyFormatChars, if_pos hq]
        rfl
      rw [hchars]
      rfl
    · have hchars : (pyFormatF q).data =
          (natToDigits (fixed6Num q / 1000000)).map digitChar ++
            '.' :: pad6 (fixed6Num q % 1000000) := by
        rw [show (pyFormatF q).data = pyFormatChars q from rfl,
          pyFormatChars, if_neg hq]
        rfl
      rw [hchars, if_neg (head_pyBody_ne_dash _ _)]
  have hmatch : isSixDecimalFixed (pyFormatF q) =
      (!((natToDigits (fixed6Num q / 1000000)).map digitChar).isEmpty &&
        ((natToDigits (fixed6Num q / 1000000)).map digitChar).all
          Char.isDigit &&
        ((pad6 (fixed6Num q % 1000000)).length == 6) &&
        (pad6 (fixed6Num q % 1000000)).all Char.isDigit) := by
    rw [isSixDecimalFixed, hstrip, splitOnChar_dot_pyBody]
  rw [hmatch, pad6_length _ (fixed6Num_mod_lt q)]
  simp only [Bool.and_eq_true, Bool.not_eq_true', List.isEmpty_eq_false,
    beq_self_eq_true, List.all_eq_true]
  refine ⟨⟨⟨?_, ?_⟩, trivial⟩, ?_⟩
  · simpa using natToDigits_ne_nil (fixed6Num q / 1000000)
  · exact fun c hc => intChars_all_digit _ c hc
  · exact fun c hc => pad6_all_digit _ c hc

/-- C10: the text returned by `write_dat` is exactly the optional name line
(the name verbatim when `include_name`), followed by one line per coordinate
each being two 6-decimal fixed-point numerals separated by a single space,
all joined by single `'\n'` characters with no trailing newline. -/
theorem write_dat_text_shape (n : String) (C : List (ℚ × ℚ)) (b : Bool) :
    write_dat n C b =
      joinNL ((if b then [n] else []) ++
        C.map (fun p => pyFormatF p.1 ++ " " ++ pyFormatF p.2)) ∧
    ∀ q : ℚ, isSixDecimalFixed (pyFormatF q) = true :=
  ⟨rfl, fun q => pyFormat_isSixDecimalFixed q⟩

/-- C8, counterexample.  With a name containing a newline, the text of
`write_dat` has three lines, not `len(C) + 1 = 2`, and its first line is not
the name. -/
theorem newline_name_breaks_line_count :
    (datLines (write_dat "a\nb" [((0 : ℚ), (0 : ℚ))] true)).length ≠
      [((0 : ℚ), (0 : ℚ))].length + 1 ∧
    (datLines (write_dat "a\nb" [((0 : ℚ), (0 : ℚ))] true)).head? ≠
      some "a\nb" := by decide

/-- C8, amended: for every coordinate list and name, provided the name
contains no newline character (and is nonempty in the degenerate
name-line-only case of `include_name = true` with no coordinates), the text
has exactly `len(C)` lines without the name and `len(C) + 1` lines with it,
the first being the name. -/
theorem write_dat_line_count (n : String) (C : List (ℚ × ℚ)) (b : Bool)
    (hnl : b = true → '\n' ∉ n.data)
    (hempty : b = true → C = [] → n ≠ "") :
    (datLines (write_dat n C b)).length =
      C.length + (if b then 1 else 0) ∧
    (b = true → (datLines (write_dat n C b)).head? = some n) := by
  rw [datLines_write_dat n C b hnl hempty]
  constructor
  · cases b <;> simp
  · intro hb
    subst hb
    simp

/-- C7, counterexample.  With a name that itself parses as a coordinate pair,
reading back the written text yields 4 points for a 3-point sequence (the
name line is mistaken for data), so the original sequence is not reproduced. -/
theorem numeric_name_breaks_roundtrip :
    (readDat (write_dat "17 3" [((0 : ℚ), (0 : ℚ)), ((1 : ℚ), (0 : ℚ)),
        ((1 : ℚ), (1 : ℚ))] true)).map List.length = some 4 ∧
    [((0 : ℚ), (0 : ℚ)), ((1 : ℚ), (0 : ℚ)), ((1 : ℚ), (1 : ℚ))].length = 3 := by
  decide

theorem mapM_parse_coordLines (C : List (ℚ × ℚ)) :
    (C.map coordLine).mapM parseCoordLine =
      some (C.map (fun p => (round6 p.1, round6 p.2))) := by
  induction C with
  | nil => rfl
  | cons p rest ih =>
    rw [List.map_cons, List.mapM_cons, parseCoordLine_coordLine p, ih]
    rfl

/-- C7, amended: for every coordinate sequence with at least 3 points and
every name that contains no newline and does not itself parse as a
coordinate line, reading back the text written with or without the name
reproduces the sequence exactly up to the 6-decimal precision of the format
(each read value is the written value rounded to six decimals, within
half of `10⁻⁶`), preserving point order. -/
theorem read_write_dat_roundtrip (n : String) (C : List (ℚ × ℚ)) (b : Bool)
    (hlen : 3 ≤ C.length)
    (hname : b = true → ('\n' ∉ n.data ∧ parseCoordLine n = none)) :
    readDat (write_dat n C b) =
      some (C.map (fun p => (round6 p.1, round6 p.2))) ∧
    ∀ q : ℚ, |round6 q - q| ≤ 1 / 2000000 := by
  refine ⟨?_, fun q => round6_abs_sub_le q⟩
  have hCne : C ≠ [] := by
    intro h
    rw [h] at hlen
    simp at hlen
  have hlines := datLines_write_dat n C b (fun hb => (hname hb).1)
    (fun _ hC => absurd hC hCne)
  rcases C with _ | ⟨p, rest⟩
  · exact absurd rfl hCne
  · cases b with
    | false =>
      have hl : datLines (write_dat n (p :: rest) false) =
          coordLine p :: rest.map coordLine := by
        rw [hlines]
        rfl
      have hstep : readDat (write_dat n (p :: rest) false) =
          match parseCoordLine (coordLine p) with
          | some x => ((rest.map coordLine).mapM parseCoordLine).map
              (fun ps => x :: ps)
          | none => (rest.map coordLine).mapM parseCoordLine := by
        rw [readDat, hl]
      rw [hstep, parseCoordLine_coordLine p, mapM_parse_coordLines rest]
      rfl
    | true =>
      have hl : datLines (write_dat n (p :: rest) true) =
          n :: coordLine p :: rest.map coordLine := by
        rw [hlines]
        rfl
      have hstep : readDat (write_dat n (p :: rest) true) =
          match parseCoordLine n with
          | some x => (((p :: rest).map coordLine).mapM parseCoordLine).map
              (fun ps => x :: ps)
          | none => ((p :: rest).map coordLine).mapM parseCoordLine := by
        rw [readDat, hl]
        rfl
      rw [hstep, (hname rfl).2, mapM_parse_coordLines (p :: rest)]

theorem write_dat_line_count_witness :
    (datLines (write_dat "NACA 0012" [((1 : ℚ), (0 : ℚ)), ((0 : ℚ), (0 : ℚ))]
      true)).length =
      [((1 : ℚ), (0 : ℚ)), ((0 : ℚ), (0 : ℚ))].length +
        (if true then 1 else 0) ∧
    (true = true →
      (datLines (write_dat "NACA 0012" [((1 : ℚ), (0 : ℚ)), ((0 : ℚ), (0 : ℚ))]
        true)).head? = some "NACA 0012") :=
  write_dat_line_count "NACA 0012" [((1 : ℚ), (0 : ℚ)), ((0 : ℚ), (0 : ℚ))]
    true (fun _ => by decide) (fun _ h => List.noConfusion h)

theorem read_write_dat_roundtrip_witness :
    readDat (write_dat "NACA 0012" [((0 : ℚ), (0 : ℚ)), ((1 : ℚ), (0 : ℚ)),
        ((1 : ℚ), (1 : ℚ))] true) =
      some ([((0 : ℚ), (0 : ℚ)), ((1 : ℚ), (0 : ℚ)), ((1 : ℚ), (1 : ℚ))].map
        (fun p => (round6 p.1, round6 p.2))) ∧
    ∀ q : ℚ, |round6 q - q| ≤ 1 / 2000000 :=
  read_write_dat_roundtrip "NACA 0012"
    [((0 : ℚ), (0 : ℚ)), ((1 : ℚ), (0 : ℚ)), ((1 : ℚ), (1 : ℚ))] true
    (by decide) (fun _ => ⟨by decide, by decide⟩)

end AirfoilToolkit
